import Mathlib

/-!
Verification development for the vscode-acp session/connection core.

The definitions below are a shallow embedding of the TypeScript sources:
  * `SessionManager`     (src/core/SessionManager.ts)
  * `PermissionHandler`  (src/handlers/PermissionHandler.ts)
  * `TerminalHandler`    (src/handlers/TerminalHandler.ts)
  * `FileSystemHandler`  (src/handlers/FileSystemHandler.ts)

JavaScript `Map` objects are embedded as insertion-ordered association
lists, strings as Lean `String` (or `List Char` where byte-level
reasoning is needed), and `async` methods that may `throw` as functions
returning the post-state together with an `Except`: the state component
records mutations that happened before the throw, exactly as a thrown JS
exception leaves earlier mutations in place.
-/

namespace Acp

/-- Insertion-ordered association-list lookup, embedding `Map.get`. -/
def alookup {β : Type} (m : List (String × β)) (k : String) : Option β :=
  match m with
  | [] => none
  | (k', v) :: rest => if k' = k then some v else alookup rest k

/-- Embedding of `Map.set`: replace in place if the key exists, else append. -/
def aset {β : Type} (m : List (String × β)) (k : String) (v : β) :
    List (String × β) :=
  match m with
  | [] => [(k, v)]
  | (k', v') :: rest =>
    if k' = k then (k, v) :: rest else (k', v') :: aset rest k v

/-- Embedding of `Map.delete`. -/
def adel {β : Type} (m : List (String × β)) (k : String) :
    List (String × β) :=
  match m with
  | [] => []
  | (k', v') :: rest => if k' = k then adel rest k else (k', v') :: adel rest k

@[simp] theorem alookup_nil {β : Type} (k : String) :
    alookup ([] : List (String × β)) k = none := rfl

@[simp] theorem alookup_cons {β : Type} (k' k : String) (v : β) (rest) :
    alookup ((k', v) :: rest) k
      = if k' = k then some v else alookup rest k := rfl

@[simp] theorem aset_nil {β : Type} (k : String) (v : β) :
    aset ([] : List (String × β)) k v = [(k, v)] := rfl

@[simp] theorem aset_cons {β : Type} (k' k : String) (v' v : β) (rest) :
    aset ((k', v') :: rest) k v
      = if k' = k then (k, v) :: rest else (k', v') :: aset rest k v := rfl

@[simp] theorem adel_nil {β : Type} (k : String) :
    adel ([] : List (String × β)) k = [] := rfl

@[simp] theorem adel_cons {β : Type} (k' k : String) (v' : β) (rest) :
    adel ((k', v') :: rest) k
      = if k' = k then adel rest k else (k', v') :: adel rest k := rfl

/-! ## SessionManager (src/core/SessionManager.ts) -/

/-- The slice of `SessionInfo` the session state machine reads and writes.
`modes`/`models` keep just the `currentModeId`/`currentModelId` mirrors that
`setMode`/`setModel` update (`null` state embedded as `none`). -/
structure SessionInfo where
  sessionId : String
  agentId : String
  agentName : String
  modes : Option String
  models : Option String
  deriving Repr, DecidableEq

/-- Events emitted through `this.emit(...)` in SessionManager. -/
inductive SMEvent where
  | agentConnected (name : String)
  | agentDisconnected (name : String)
  | activeSessionChanged (sessionId : Option String)
  | clearChat
  | modeChanged (sessionId modeId : String)
  | modelChanged (sessionId modelId : String)
  deriving Repr, DecidableEq

/-- Combined state of SessionManager, its AgentManager and its
ConnectionManager:
  * `sessions`, `agentSessions`, `activeSessionId` are SessionManager's
    fields;
  * `connections` is the ConnectionManager's map (only membership of an
    agent id matters to the session logic);
  * `nextAgentId` is AgentManager's id counter, `killed` records agent ids
    passed to `agentManager.killAgent`;
  * `events` records emitted events, in order. -/
structure SMState where
  sessions : List (String × SessionInfo)
  agentSessions : List (String × String)
  activeSessionId : Option String
  connections : List String
  nextAgentId : Nat
  killed : List String
  events : List SMEvent
  deriving Repr, DecidableEq

def SMState.initial : SMState :=
  { sessions := [], agentSessions := [], activeSessionId := none
    connections := [], nextAgentId := 1, killed := [], events := [] }

/-- Errors thrown (as JS exceptions) by the session layer. -/
inductive SMError where
  | unknownAgent (name : String)
  | connectionFailed
  | sessionCreateFailed
  | noAuthMethods (name : String)
  | authCancelled
  | authFailed
  | sessionNotFound (sessionId : String)
  | noConnection (agentId : String)
  | rpcFailed
  deriving Repr, DecidableEq

def SMState.getActiveSession (st : SMState) : Option SessionInfo :=
  match st.activeSessionId with
  | none => none
  | some sid => alookup st.sessions sid

def SMState.getActiveAgentName (st : SMState) : Option String :=
  (st.getActiveSession).map (·.agentName)

def SMState.getConnectedAgentNames (st : SMState) : List String :=
  st.agentSessions.map (·.1)

/-- `disconnectAgent(agentName)`: kill the process, drop the connection,
remove the session, clear the active pointer if it pointed here, emit
`agent-disconnected` and `active-session-changed(null)`.  A name with no
session id, or a dangling session id, returns without doing anything. -/
def disconnectAgent (agentName : String) (st : SMState) : SMState :=
  match alookup st.agentSessions agentName with
  | none => st
  | some sessionId =>
    match alookup st.sessions sessionId with
    | none => st
    | some session =>
      { st with
        killed := st.killed ++ [session.agentId]
        connections := st.connections.filter (· ≠ session.agentId)
        sessions := adel st.sessions sessionId
        agentSessions := adel st.agentSessions agentName
        activeSessionId :=
          if st.activeSessionId = some sessionId then none
          else st.activeSessionId
        events := st.events ++
          [.agentDisconnected agentName, .activeSessionChanged none] }

/-- Result of one RPC call made to the agent, as seen by the session layer.
A failed `newSession` is auth-required when the error code is `-32000` or
the message matches `/auth.?required/i`; `authRequiredErr` abstracts that
boolean test of the thrown error. -/
inductive RpcOutcome (α : Type) where
  | ok (value : α)
  | err (authRequiredErr : Bool)
  deriving Repr, DecidableEq

structure AuthMethod where
  id : String
  name : String
  deriving Repr, DecidableEq, Inhabited

/-- Environment of one `createAcpSession` run: the agent's and the user's
responses to each suspension point of the code. -/
structure AcpEnv where
  /-- result of the first `newSession` call -/
  newSession1 : RpcOutcome String
  /-- `connInfo.initResponse.authMethods` (empty list embeds null/[]) -/
  authMethods : List AuthMethod
  /-- index the user picks when several methods are offered; `none` = pick
      dismissed -/
  userPick : Option Nat
  /-- user answer to the single-method confirmation dialog -/
  userConfirm : Bool
  /-- result of the `authenticate` call -/
  authResult : RpcOutcome Unit
  /-- result of the retried `newSession` call -/
  newSession2 : RpcOutcome String
  deriving Repr, DecidableEq

/-- `createAcpSession` (auth-handling session creation).  Every throwing
path of the source calls `killAgent` immediately before the throw; the
model returns just the `Except` and the caller records the kill on the
error branch, which yields the same net state. -/
def createAcpSession (env : AcpEnv) (agentName : String) : Except SMError String :=
  match env.newSession1 with
  | .ok sid => .ok sid
  | .err authRequired =>
    if !authRequired then .error .sessionCreateFailed
    else if env.authMethods.isEmpty then .error (.noAuthMethods agentName)
    else
      let selected : Except SMError AuthMethod :=
        if env.authMethods.length > 1 then
          match env.userPick with
          | none => .error .authCancelled
          | some i =>
            match env.authMethods.get? i with
            | none => .error .authCancelled
            | some m => .ok m
        else
          if env.userConfirm then .ok (env.authMethods.headI)
          else .error .authCancelled
      match selected with
      | .error e => .error e
      | .ok _ =>
        match env.authResult with
        | .err _ => .error .authFailed
        | .ok _ =>
          match env.newSession2 with
          | .err _ => .error .sessionCreateFailed
          | .ok sid => .ok sid

/-- Environment of one `connectToAgent` run. -/
structure ConnectEnv where
  /-- `getAgentConfigs()[agentName]` is defined -/
  hasConfig : Bool
  /-- `connectionManager.connect` resolves (initialize handshake succeeds) -/
  connectOk : Bool
  acp : AcpEnv
  deriving Repr, DecidableEq

/-- The spawn/connect/newSession part of `connectToAgent`, after the
currently active agent (if any) has been disconnected: spawn, connect,
create the ACP session, then register the triple and emit events. -/
def spawnAndConnect (env : ConnectEnv) (agentName : String) (st : SMState) :
    SMState × Except SMError SessionInfo :=
  if !env.hasConfig then (st, .error (.unknownAgent agentName))
  else
    -- agentManager.spawnAgent: id `agent_${nextId++}`
    let agentId := "agent_" ++ toString st.nextAgentId
    let st := { st with nextAgentId := st.nextAgentId + 1 }
    if !env.connectOk then
      ({ st with killed := st.killed ++ [agentId] }, .error .connectionFailed)
    else
      let st := { st with connections := st.connections ++ [agentId] }
      match createAcpSession env.acp agentName with
      | .error e => ({ st with killed := st.killed ++ [agentId] }, .error e)
      | .ok sid =>
        let info : SessionInfo :=
          { sessionId := sid, agentId := agentId, agentName := agentName
            modes := none, models := none }
        ({ st with
            sessions := aset st.sessions sid info
            agentSessions := aset st.agentSessions agentName sid
            activeSessionId := some sid
            events := st.events ++
              [.agentConnected agentName, .activeSessionChanged (some sid)] },
         .ok info)

/-- The fresh-connection tail of `connectToAgent` (everything after the
reuse check): disconnect the currently active agent first (single-agent
model), then spawn and connect. -/
def connectFresh (env : ConnectEnv) (agentName : String) (st : SMState) :
    SMState × Except SMError SessionInfo :=
  spawnAndConnect env agentName
    (match st.getActiveAgentName with
     | some current => disconnectAgent current st
     | none => st)

/-- `connectToAgent(agentName)`: reuse a live session if one exists for
this agent, otherwise run the fresh-connection path. -/
def connectToAgent (env : ConnectEnv) (agentName : String) (st : SMState) :
    SMState × Except SMError SessionInfo :=
  match alookup st.agentSessions agentName with
  | some existingSessionId =>
    match alookup st.sessions existingSessionId with
    | some info =>
      ({ st with
          activeSessionId := some existingSessionId
          events := st.events ++ [.activeSessionChanged (some existingSessionId)] },
       .ok info)
    | none => connectFresh env agentName st
  | none => connectFresh env agentName st

/-- `sendPrompt(sessionId, text)`: throws `Session not found` for an
unknown id, throws `No connection` for a dangling agent id, otherwise the
`prompt` RPC's outcome (its stop reason) is returned. -/
def sendPrompt (rpc : RpcOutcome String) (st : SMState)
    (sessionId : String) (_text : String) :
    SMState × Except SMError String :=
  match alookup st.sessions sessionId with
  | none => (st, .error (.sessionNotFound sessionId))
  | some session =>
    if !(st.connections.contains session.agentId) then
      (st, .error (.noConnection session.agentId))
    else
      match rpc with
      | .ok stopReason => (st, .ok stopReason)
      | .err _ => (st, .error .rpcFailed)

/-- `cancelTurn(sessionId)`: silently returns for an unknown id or a
missing connection, otherwise issues the `cancel` RPC. -/
def cancelTurn (rpc : RpcOutcome Unit) (st : SMState) (sessionId : String) :
    SMState × Except SMError Unit :=
  match alookup st.sessions sessionId with
  | none => (st, .ok ())
  | some session =>
    if !(st.connections.contains session.agentId) then (st, .ok ())
    else
      match rpc with
      | .ok _ => (st, .ok ())
      | .err _ => (st, .error .rpcFailed)

/-- `setMode(sessionId, modeId)`: silently returns for an unknown id or a
missing connection; on a successful RPC, optimistically updates the cached
`currentModeId` (when modes state exists) and emits `mode-changed`. -/
def setMode (rpc : RpcOutcome Unit) (st : SMState)
    (sessionId modeId : String) : SMState × Except SMError Unit :=
  match alookup st.sessions sessionId with
  | none => (st, .ok ())
  | some session =>
    if !(st.connections.contains session.agentId) then (st, .ok ())
    else
      match rpc with
      | .err _ => (st, .error .rpcFailed)
      | .ok _ =>
        let session' := match session.modes with
          | none => session
          | some _ => { session with modes := some modeId }
        ({ st with
            sessions := aset st.sessions sessionId session'
            events := st.events ++ [.modeChanged sessionId modeId] },
         .ok ())

/-- `setModel(sessionId, modelId)`: same shape as `setMode` over the
`models` mirror, emitting `model-changed`. -/
def setModel (rpc : RpcOutcome Unit) (st : SMState)
    (sessionId modelId : String) : SMState × Except SMError Unit :=
  match alookup st.sessions sessionId with
  | none => (st, .ok ())
  | some session =>
    if !(st.connections.contains session.agentId) then (st, .ok ())
    else
      match rpc with
      | .err _ => (st, .error .rpcFailed)
      | .ok _ =>
        let session' := match session.models with
          | none => session
          | some _ => { session with models := some modelId }
        ({ st with
            sessions := aset st.sessions sessionId session'
            events := st.events ++ [.modelChanged sessionId modelId] },
         .ok ())

/-- Reachable-state shape of the single-agent model: either nothing is
connected and both maps are empty, or exactly one session is registered,
its agent name is the sole key of `agentSessions`, and the active pointer
designates it. -/
def WellFormed (st : SMState) : Bool :=
  match st.activeSessionId with
  | none => st.sessions.isEmpty && st.agentSessions.isEmpty
  | some sid =>
    match st.sessions with
    | [(sid', info)] =>
      sid' = sid && info.sessionId = sid &&
        st.agentSessions = [(info.agentName, sid)]
    | _ => false

theorem wellFormed_cases (st : SMState) (h : WellFormed st = true) :
    (st.activeSessionId = none ∧ st.sessions = [] ∧ st.agentSessions = []) ∨
    (∃ sid info, st.activeSessionId = some sid ∧ st.sessions = [(sid, info)] ∧
      info.sessionId = sid ∧ st.agentSessions = [(info.agentName, sid)]) := by
  unfold WellFormed at h
  cases hA : st.activeSessionId with
  | none =>
    rw [hA] at h
    simp only [Bool.and_eq_true, List.isEmpty_iff] at h
    exact .inl ⟨rfl, h.1, h.2⟩
  | some sid =>
    rw [hA] at h
    cases hS : st.sessions with
    | nil => rw [hS] at h; simp at h
    | cons p rest =>
      cases rest with
      | cons q rest' => rw [hS] at h; simp at h
      | nil =>
        obtain ⟨sid', info⟩ := p
        rw [hS] at h
        simp only [Bool.and_eq_true, decide_eq_true_eq] at h
        exact .inr ⟨sid, info, rfl, by rw [h.1.1], h.1.2, h.2⟩

/-- Fresh connection from an empty (nothing-connected) state with a
successful handshake registers exactly the new session. -/
theorem connectFresh_ok_empty (env : ConnectEnv) (name : String) (st : SMState)
    (hA : st.activeSessionId = none) (hS : st.sessions = [])
    (hM : st.agentSessions = [])
    (hc : env.hasConfig = true) (hk : env.connectOk = true)
    (sid : String) (hn : createAcpSession env.acp name = .ok sid) :
    connectFresh env name st =
      ({ st with
          sessions :=
            [(sid, ⟨sid, "agent_" ++ toString st.nextAgentId, name, none, none⟩)]
          agentSessions := [(name, sid)]
          activeSessionId := some sid
          connections := st.connections ++ ["agent_" ++ toString st.nextAgentId]
          nextAgentId := st.nextAgentId + 1
          events := st.events ++
            [.agentConnected name, .activeSessionChanged (some sid)] },
       .ok ⟨sid, "agent_" ++ toString st.nextAgentId, name, none, none⟩) := by
  unfold connectFresh spawnAndConnect
  simp only [SMState.getActiveAgentName, SMState.getActiveSession, hA, hS, hM,
    Option.map_none', hc, hk, hn, Bool.not_true, Bool.false_eq_true, if_false,
    aset_nil]

/-- `disconnectAgent` on the (well-formed) single live agent empties both
maps and clears the active pointer. -/
theorem disconnectAgent_active (st : SMState) (sid : String) (info : SessionInfo)
    (hA : st.activeSessionId = some sid) (hS : st.sessions = [(sid, info)])
    (hM : st.agentSessions = [(info.agentName, sid)]) :
    disconnectAgent info.agentName st =
      { st with
        killed := st.killed ++ [info.agentId]
        connections := st.connections.filter (· ≠ info.agentId)
        sessions := []
        agentSessions := []
        activeSessionId := none
        events := st.events ++
          [.agentDisconnected info.agentName, .activeSessionChanged none] } := by
  simp [disconnectAgent, hA, hS, hM]

/-- The reuse short-circuit of `connectToAgent`: a live session for the
requested agent is returned as-is, with only the active pointer and the
event log updated. -/
theorem connectToAgent_reuse (env : ConnectEnv) (name : String) (st : SMState)
    (sid : String) (info : SessionInfo)
    (h1 : alookup st.agentSessions name = some sid)
    (h2 : alookup st.sessions sid = some info) :
    connectToAgent env name st =
      ({ st with
          activeSessionId := some sid
          events := st.events ++ [.activeSessionChanged (some sid)] },
       .ok info) := by
  simp only [connectToAgent, h1, h2]

/-- A `connectToAgent` call that returns `.ok` from a well-formed state
leaves exactly one registered session — the returned one — active. -/
theorem connectToAgent_ok_shape (env : ConnectEnv) (name : String)
    (st st' : SMState) (info : SessionInfo)
    (hwf : WellFormed st = true)
    (h : connectToAgent env name st = (st', .ok info)) :
    info.agentName = name ∧
    st'.sessions = [(info.sessionId, info)] ∧
    st'.agentSessions = [(name, info.sessionId)] ∧
    st'.activeSessionId = some info.sessionId := by
  rcases wellFormed_cases st hwf with ⟨hA, hS, hM⟩ | ⟨sid, i, hA, hS, hsid, hM⟩
  · -- nothing connected: reuse lookup misses, fresh path runs
    unfold connectToAgent at h
    rw [hM] at h
    simp only [alookup_nil] at h
    unfold connectFresh at h
    simp only [SMState.getActiveAgentName, SMState.getActiveSession, hA,
      Option.map_none'] at h
    unfold spawnAndConnect at h
    by_cases hc : env.hasConfig
    · by_cases hk : env.connectOk
      · cases hn : createAcpSession env.acp name with
        | error e => simp [hc, hk, hn] at h
        | ok sid =>
          simp only [hc, hk, hn, Bool.not_true, Bool.false_eq_true, if_false,
            hS, hM, aset_nil] at h
          injection h with h1 h2
          injection h2 with h2
          subst h1; subst h2
          exact ⟨rfl, rfl, rfl, rfl⟩
      · simp [hc, hk] at h
    · simp [hc] at h
  · -- one agent live
    by_cases hname : i.agentName = name
    · -- reuse path
      rw [connectToAgent_reuse env name st sid i (by rw [hM]; simp [hname])
          (by rw [hS]; simp)] at h
      injection h with h1 h2
      injection h2 with h2
      subst h2
      refine ⟨hname, ?_, ?_, ?_⟩ <;> rw [← h1] <;> simp [hS, hM, hname, hsid]
    · -- different agent: full disconnect of the live one, then fresh
      unfold connectToAgent at h
      rw [hM] at h
      simp only [alookup_cons, alookup_nil, if_neg hname] at h
      unfold connectFresh at h
      have hact : st.getActiveAgentName = some i.agentName := by
        simp [SMState.getActiveAgentName, SMState.getActiveSession, hA, hS]
      rw [hact] at h
      simp only [disconnectAgent_active st sid i hA hS hM] at h
      unfold spawnAndConnect at h
      by_cases hc : env.hasConfig
      · by_cases hk : env.connectOk
        · cases hn : createAcpSession env.acp name with
          | error e => simp [hc, hk, hn] at h
          | ok sid' =>
            simp only [hc, hk, hn, Bool.not_true, Bool.false_eq_true, if_false,
              aset_nil] at h
            injection h with h1 h2
            injection h2 with h2
            subst h1; subst h2
            exact ⟨rfl, rfl, rfl, rfl⟩
        · simp [hc, hk] at h
      · simp [hc] at h

theorem wellFormed_of_shape (st : SMState) (info : SessionInfo)
    (h1 : st.sessions = [(info.sessionId, info)])
    (h2 : st.agentSessions = [(info.agentName, info.sessionId)])
    (h3 : st.activeSessionId = some info.sessionId) :
    WellFormed st = true := by
  simp [WellFormed, h1, h2, h3]

/-- `spawnAndConnect` only ever appends to the kill log and the event log. -/
theorem spawnAndConnect_extends (env : ConnectEnv) (name : String)
    (st st' : SMState) (r : Except SMError SessionInfo)
    (h : spawnAndConnect env name st = (st', r)) :
    ∃ tk te, st'.killed = st.killed ++ tk ∧ st'.events = st.events ++ te := by
  unfold spawnAndConnect at h
  cases hc : env.hasConfig with
  | false =>
    simp only [hc, Bool.not_false, if_true] at h
    injection h with h1 h2
    exact ⟨[], [], by rw [← h1]; simp, by rw [← h1]; simp⟩
  | true =>
    cases hk : env.connectOk with
    | false =>
      simp only [hc, hk, Bool.not_true, Bool.not_false, Bool.false_eq_true,
        if_false, if_true] at h
      injection h with h1 h2
      exact ⟨["agent_" ++ toString st.nextAgentId], [],
        by rw [← h1], by rw [← h1]; simp⟩
    | true =>
      cases hn : createAcpSession env.acp name with
      | error e =>
        simp only [hc, hk, hn, Bool.not_true, Bool.false_eq_true, if_false] at h
        injection h with h1 h2
        exact ⟨["agent_" ++ toString st.nextAgentId], [],
          by rw [← h1], by rw [← h1]; simp⟩
      | ok sid =>
        simp only [hc, hk, hn, Bool.not_true, Bool.false_eq_true, if_false] at h
        injection h with h1 h2
        exact ⟨[], [.agentConnected name, .activeSessionChanged (some sid)],
          by rw [← h1]; simp, by rw [← h1]⟩

/-- When `spawnAndConnect` runs with a known config and a failing connect
or a failing session creation, it rejects, kills the spawned process, and
leaves the session tables as it found them. -/
theorem spawnAndConnect_fail (env : ConnectEnv) (name : String) (st : SMState)
    (hc : env.hasConfig = true)
    (hfail : env.connectOk = false ∨ ∃ e, createAcpSession env.acp name = .error e) :
    ∃ err st', spawnAndConnect env name st = (st', .error err) ∧
      st'.sessions = st.sessions ∧ st'.agentSessions = st.agentSessions ∧
      st'.activeSessionId = st.activeSessionId ∧
      ("agent_" ++ toString st.nextAgentId) ∈ st'.killed := by
  cases hk : env.connectOk with
  | false =>
    refine ⟨.connectionFailed,
      { st with nextAgentId := st.nextAgentId + 1
                killed := st.killed ++ ["agent_" ++ toString st.nextAgentId] },
      ?_, rfl, rfl, rfl, by simp⟩
    simp [spawnAndConnect, hc, hk]
  | true =>
    rcases hfail with hk' | ⟨e, he⟩
    · rw [hk] at hk'; cases hk'
    · refine ⟨e,
        { st with nextAgentId := st.nextAgentId + 1
                  connections := st.connections ++ ["agent_" ++ toString st.nextAgentId]
                  killed := st.killed ++ ["agent_" ++ toString st.nextAgentId] },
        ?_, rfl, rfl, rfl, by simp⟩
      simp [spawnAndConnect, hc, hk, he]

/-- A `connectToAgent(name)` call made while a different agent holds the
single live session runs a full disconnect of that agent: its process is
killed and `agent-disconnected` is emitted, whatever else happens. -/
theorem connectToAgent_disconnects_other (env : ConnectEnv) (name : String)
    (st : SMState) (sid : String) (i : SessionInfo) (st' : SMState)
    (r : Except SMError SessionInfo)
    (hA : st.activeSessionId = some sid) (hS : st.sessions = [(sid, i)])
    (hM : st.agentSessions = [(i.agentName, sid)])
    (hname : i.agentName ≠ name)
    (h : connectToAgent env name st = (st', r)) :
    i.agentId ∈ st'.killed ∧ SMEvent.agentDisconnected i.agentName ∈ st'.events := by
  unfold connectToAgent at h
  rw [hM] at h
  simp only [alookup_cons, alookup_nil, if_neg hname] at h
  unfold connectFresh at h
  have hact : st.getActiveAgentName = some i.agentName := by
    simp [SMState.getActiveAgentName, SMState.getActiveSession, hA, hS]
  rw [hact] at h
  simp only [disconnectAgent_active st sid i hA hS hM] at h
  obtain ⟨tk, te, hk, he⟩ := spawnAndConnect_extends env name _ st' r h
  constructor
  · rw [hk]; simp
  · rw [he]; simp

/-- C1.  Single-active-agent invariant: after `connectToAgent(A)` then
`connectToAgent(B)` (A ≠ B) both complete successfully, only B has a live
session in the coordinator's table, and the second call ran a full
disconnect of A (killed A's process and emitted `agent-disconnected(A)`). -/
theorem single_active_agent
    (envA envB : ConnectEnv) (A B : String) (st stA stB : SMState)
    (infoA infoB : SessionInfo)
    (hwf : WellFormed st = true) (hAB : A ≠ B)
    (h1 : connectToAgent envA A st = (stA, .ok infoA))
    (h2 : connectToAgent envB B stA = (stB, .ok infoB)) :
    alookup stB.agentSessions A = none ∧
    alookup stB.agentSessions B = some infoB.sessionId ∧
    stB.getConnectedAgentNames = [B] ∧
    infoA.agentId ∈ stB.killed ∧
    SMEvent.agentDisconnected A ∈ stB.events := by
  obtain ⟨hNA, hSA, hMA, hAA⟩ := connectToAgent_ok_shape envA A st stA infoA hwf h1
  have hwfA : WellFormed stA = true :=
    wellFormed_of_shape stA infoA hSA (by rw [hNA]; exact hMA) hAA
  obtain ⟨hNB, hSB, hMB, hAB'⟩ :=
    connectToAgent_ok_shape envB B stA stB infoB hwfA h2
  have hkill := connectToAgent_disconnects_other envB B stA infoA.sessionId infoA
    stB (.ok infoB) hAA hSA (by rw [hNA]; exact hMA)
    (by rw [hNA]; exact hAB) h2
  refine ⟨?_, ?_, ?_, hkill.1, ?_⟩
  · rw [hMB]; simp [Ne.symm hAB]
  · rw [hMB]; simp
  · simp [SMState.getConnectedAgentNames, hMB]
  · have := hkill.2; rwa [hNA] at this

def envWitA : ConnectEnv :=
  { hasConfig := true, connectOk := true
    acp := { newSession1 := .ok "sid-a", authMethods := [], userPick := none
             userConfirm := false, authResult := .ok (), newSession2 := .err false } }

def envWitB : ConnectEnv :=
  { hasConfig := true, connectOk := true
    acp := { newSession1 := .ok "sid-b", authMethods := [], userPick := none
             userConfirm := false, authResult := .ok (), newSession2 := .err false } }

def stWitA : SMState := (connectToAgent envWitA "alpha" SMState.initial).1

def infoWitA : SessionInfo :=
  { sessionId := "sid-a", agentId := "agent_1", agentName := "alpha"
    modes := none, models := none }

def stWitB : SMState := (connectToAgent envWitB "beta" stWitA).1

def infoWitB : SessionInfo :=
  { sessionId := "sid-b", agentId := "agent_2", agentName := "beta"
    modes := none, models := none }

theorem single_active_agent_witness :
    alookup stWitB.agentSessions "alpha" = none ∧
    alookup stWitB.agentSessions "beta" = some infoWitB.sessionId ∧
    stWitB.getConnectedAgentNames = ["beta"] ∧
    infoWitA.agentId ∈ stWitB.killed ∧
    SMEvent.agentDisconnected "alpha" ∈ stWitB.events :=
  single_active_agent envWitA envWitB "alpha" "beta" SMState.initial stWitA stWitB
    infoWitA infoWitB rfl (by decide) rfl rfl

/-- C8.  Connection reuse: with agent A's session live after a successful
`connectToAgent(A)`, a second consecutive `connectToAgent(A)` returns the
very same session (in particular the same sessionId), spawns no second
process (the spawn counter and kill log are untouched), and marks that
session active. -/
theorem connect_reuse_idempotent
    (envA envB : ConnectEnv) (A : String) (st stA stB : SMState)
    (infoA infoB : SessionInfo)
    (hwf : WellFormed st = true)
    (h1 : connectToAgent envA A st = (stA, .ok infoA))
    (h2 : connectToAgent envB A stA = (stB, .ok infoB)) :
    infoB = infoA ∧
    infoB.sessionId = infoA.sessionId ∧
    stB.nextAgentId = stA.nextAgentId ∧
    stB.killed = stA.killed ∧
    stB.sessions = stA.sessions ∧
    stB.activeSessionId = some infoA.sessionId := by
  obtain ⟨hNA, hSA, hMA, hAA⟩ := connectToAgent_ok_shape envA A st stA infoA hwf h1
  have hre := connectToAgent_reuse envB A stA infoA.sessionId infoA
    (by rw [hMA]; simp) (by rw [hSA]; simp)
  rw [hre] at h2
  injection h2 with h1' h2'
  injection h2' with h2'
  subst h2'
  exact ⟨rfl, rfl, by rw [← h1'], by rw [← h1'], by rw [← h1'], by rw [← h1']⟩

theorem connect_reuse_idempotent_witness :
    (connectToAgent envWitB "alpha" stWitA).1.nextAgentId = stWitA.nextAgentId ∧
    (connectToAgent envWitB "alpha" stWitA).1.activeSessionId
      = some infoWitA.sessionId :=
  have h := connect_reuse_idempotent envWitA envWitB "alpha" SMState.initial stWitA
    (connectToAgent envWitB "alpha" stWitA).1 infoWitA infoWitA rfl rfl rfl
  ⟨h.2.2.1, h.2.2.2.2.2⟩

/-- C4.  Connection-failure atomicity: when the spawn's handshake fails
(`connect` rejects) or session creation fails before `newSession`
succeeds, `connectToAgent` rejects, the spawned process is killed, no
session is registered, and `getConnectedAgentNames()` is empty. -/
theorem connect_failure_atomic (env : ConnectEnv) (A : String) (st : SMState)
    (hwf : WellFormed st = true)
    (hnl : alookup st.agentSessions A = none)
    (hc : env.hasConfig = true)
    (hfail : env.connectOk = false ∨ ∃ e, createAcpSession env.acp A = .error e) :
    ∃ err st', connectToAgent env A st = (st', .error err) ∧
      st'.sessions = [] ∧
      st'.getConnectedAgentNames = [] ∧
      ("agent_" ++ toString st.nextAgentId) ∈ st'.killed := by
  rcases wellFormed_cases st hwf with ⟨hA, hS, hM⟩ | ⟨sid, i, hA, hS, hsid, hM⟩
  · obtain ⟨err, st', heq, hs', hm', _, hk'⟩ := spawnAndConnect_fail env A st hc hfail
    refine ⟨err, st', ?_, by rw [hs', hS], ?_, hk'⟩
    · simp only [connectToAgent, hnl]
      unfold connectFresh
      simpa [SMState.getActiveAgentName, SMState.getActiveSession, hA] using heq
    · simp [SMState.getConnectedAgentNames, hm', hM]
  · -- a different agent is live: it is disconnected first, then the
    -- failing spawn/connect runs from the emptied state
    have hname : i.agentName ≠ A := by
      intro hEq
      rw [hM, hEq] at hnl
      simp at hnl
    set st1 := disconnectAgent i.agentName st with hst1
    have hshape := disconnectAgent_active st sid i hA hS hM
    obtain ⟨err, st', heq, hs', hm', _, hk'⟩ := spawnAndConnect_fail env A st1 hc hfail
    refine ⟨err, st', ?_, ?_, ?_, ?_⟩
    · simp only [connectToAgent, hnl]
      unfold connectFresh
      have hact : st.getActiveAgentName = some i.agentName := by
        simp [SMState.getActiveAgentName, SMState.getActiveSession, hA, hS]
      rw [hact]
      exact heq
    · rw [hs', hst1, hshape]
    · have hempty : st'.agentSessions = [] := by rw [hm', hst1, hshape]
      simp [SMState.getConnectedAgentNames, hempty]
    · have : st1.nextAgentId = st.nextAgentId := by rw [hst1, hshape]
      rw [← this]
      exact hk'

def envWitFail : ConnectEnv :=
  { hasConfig := true, connectOk := false
    acp := { newSession1 := .err false, authMethods := [], userPick := none
             userConfirm := false, authResult := .err false, newSession2 := .err false } }

theorem connect_failure_atomic_witness :
    ∃ err st', connectToAgent envWitFail "echo" SMState.initial = (st', .error err) ∧
      st'.sessions = [] ∧
      st'.getConnectedAgentNames = [] ∧
      ("agent_" ++ toString SMState.initial.nextAgentId) ∈ st'.killed :=
  connect_failure_atomic envWitFail "echo" SMState.initial rfl rfl rfl (Or.inl rfl)

/-- C3 counterexample: against an unknown session id, `sendPrompt` throws
(`Session not found`) rather than returning an error outcome, and
`cancelTurn`/`setMode`/`setModel` return plain success (a silent no-op),
not a `SessionNotFoundError` outcome. -/
theorem unknown_session_not_returned_cex :
    (sendPrompt (.ok "end_turn") SMState.initial "sess-1" "hi").2
        = .error (.sessionNotFound "sess-1") ∧
    (cancelTurn (.ok ()) SMState.initial "sess-1").2 = .ok () ∧
    (setMode (.ok ()) SMState.initial "sess-1" "code").2 = .ok () ∧
    (setModel (.ok ()) SMState.initial "sess-1" "m1").2 = .ok () :=
  ⟨rfl, rfl, rfl, rfl⟩

/-- C3 as amended: for an unknown session id, `sendPrompt` throws a
session-not-found error while `cancelTurn`, `setMode` and `setModel`
return successfully as no-ops; all four leave the coordinator state
unchanged. -/
theorem unknown_session_ops (rpcS : RpcOutcome String) (rpcU : RpcOutcome Unit)
    (st : SMState) (sid text modeId modelId : String)
    (h : alookup st.sessions sid = none) :
    sendPrompt rpcS st sid text = (st, .error (.sessionNotFound sid)) ∧
    cancelTurn rpcU st sid = (st, .ok ()) ∧
    setMode rpcU st sid modeId = (st, .ok ()) ∧
    setModel rpcU st sid modelId = (st, .ok ()) := by
  unfold sendPrompt cancelTurn setMode setModel
  simp [h]

theorem unknown_session_ops_witness :
    sendPrompt (.ok "end_turn") SMState.initial "sess-1" "hello" =
      (SMState.initial, .error (.sessionNotFound "sess-1")) ∧
    cancelTurn (.ok ()) SMState.initial "sess-1" = (SMState.initial, .ok ()) :=
  ⟨(unknown_session_ops (.ok "end_turn") (.ok ()) SMState.initial
      "sess-1" "hello" "m" "d" rfl).1,
   (unknown_session_ops (.ok "end_turn") (.ok ()) SMState.initial
      "sess-1" "hello" "m" "d" rfl).2.1⟩

/-! ## TerminalHandler (src/handlers/TerminalHandler.ts)

JavaScript strings are sequences of UTF-16 code units: `output[i]` and
`output.length` see code units and `substring` cuts between code units,
so output buffers are embedded as `List Nat` of code units (< 0x10000).
Node's `Buffer.byteLength(s, 'utf-8')` encodes a surrogate pair as one
4-byte character and a lone surrogate as the 3-byte replacement
character U+FFFD. -/

def isHighSurrogate (u : Nat) : Bool :=
  decide (0xD800 ≤ u) && decide (u ≤ 0xDBFF)

def isLowSurrogate (u : Nat) : Bool :=
  decide (0xDC00 ≤ u) && decide (u ≤ 0xDFFF)

def isSurrogateUnit (u : Nat) : Bool :=
  decide (0xD800 ≤ u) && decide (u ≤ 0xDFFF)

/-- `Buffer.byteLength(output[i], 'utf-8')`, the byte count of a
one-code-unit string: 1 or 2 bytes for low BMP units, 3 otherwise (a
lone surrogate encodes as U+FFFD, also 3 bytes). -/
def unitByteLen (u : Nat) : Nat :=
  if u < 0x80 then 1 else if u < 0x800 then 2 else 3

/-- Sum of the per-code-unit byte counts — the quantity the truncation
loop accumulates one `output[i]` at a time. -/
def unitSum (us : List Nat) : Nat := (us.map unitByteLen).sum

/-- `Buffer.byteLength(s, 'utf-8')` of a whole string: a high surrogate
directly followed by a low surrogate encodes as one 4-byte character;
every other unit contributes `unitByteLen`. -/
def utf16ByteLen : List Nat → Nat
  | [] => 0
  | [u] => unitByteLen u
  | u :: v :: rest =>
    if isHighSurrogate u && isLowSurrogate v then 4 + utf16ByteLen rest
    else unitByteLen u + utf16ByteLen (v :: rest)

/-- The boundary-search loop of `appendOutput`: accumulate per-unit byte
counts until they reach `excess`; the result is the `cutPoint` (`i + 1`
at the first index where the running total reaches `excess`), or `none`
when the loop runs off the end (the source then leaves `cutPoint = 0`). -/
def cutPointAux (excess : Nat) : List Nat → Option Nat
  | [] => none
  | u :: rest =>
    if excess ≤ unitByteLen u then some 1
    else (cutPointAux (excess - unitByteLen u) rest).map (· + 1)

def cutPoint (excess : Nat) (us : List Nat) : Nat :=
  (cutPointAux excess us).getD 0

/-- `appendOutput` closure from `createTerminal`: append the chunk; when
`Buffer.byteLength` of the buffer exceeds the limit, drop leading code
units up to the `cutPoint` (a `substring`, which can split a surrogate
pair) and set the `truncated` flag.  State is the pair
`(output, truncated)`. -/
def appendOutput (outputByteLimit : Nat) (st : List Nat × Bool)
    (chunk : List Nat) : List Nat × Bool :=
  let out := st.1 ++ chunk
  let byteLength := utf16ByteLen out
  if byteLength > outputByteLimit then
    (out.drop (cutPoint (byteLength - outputByteLimit) out), true)
  else (out, st.2)

@[simp] theorem unitSum_nil : unitSum [] = 0 := rfl

@[simp] theorem unitSum_cons (u : Nat) (us : List Nat) :
    unitSum (u :: us) = unitByteLen u + unitSum us := rfl

theorem unitSum_append (a b : List Nat) :
    unitSum (a ++ b) = unitSum a + unitSum b := by
  simp [unitSum]

theorem unitByteLen_pos (u : Nat) : 1 ≤ unitByteLen u := by
  unfold unitByteLen
  split
  · omega
  · split <;> omega

theorem not_high_of_not_surrogate (u : Nat) (h : isSurrogateUnit u = false) :
    isHighSurrogate u = false := by
  simp only [isSurrogateUnit, isHighSurrogate, Bool.and_eq_false_iff,
    decide_eq_false_iff_not, Nat.not_le] at h ⊢
  omega

/-- Without surrogate units the whole-string byte count is exactly the
per-unit sum. -/
theorem utf16ByteLen_eq_unitSum (us : List Nat)
    (h : ∀ u ∈ us, isSurrogateUnit u = false) :
    utf16ByteLen us = unitSum us := by
  induction us with
  | nil => rfl
  | cons u rest ih =>
    cases rest with
    | nil => simp [utf16ByteLen]
    | cons v rest' =>
      have hu : isHighSurrogate u = false :=
        not_high_of_not_surrogate u (h u (by simp))
      rw [utf16ByteLen, hu]
      simp only [Bool.false_and, Bool.false_eq_true, if_false, unitSum_cons]
      rw [ih (fun x hx => h x (by simp [hx]))]
      rfl

/-- The boundary search always succeeds when the excess is positive and
not larger than the per-unit total, and the units it drops carry at
least `excess` bytes by the loop's own count. -/
theorem cutPointAux_spec (excess : Nat) (us : List Nat)
    (h1 : 1 ≤ excess) (h2 : excess ≤ unitSum us) :
    ∃ k, cutPointAux excess us = some k ∧ k ≤ us.length ∧
      excess ≤ unitSum (us.take k) := by
  induction us generalizing excess with
  | nil => simp at h2; omega
  | cons u us ih =>
    by_cases hc : excess ≤ unitByteLen u
    · exact ⟨1, by simp [cutPointAux, hc], by simp, by simpa using hc⟩
    · push_neg at hc
      have hsz : 1 ≤ unitByteLen u := unitByteLen_pos u
      obtain ⟨k, hk, hkl, hkb⟩ := ih (excess - unitByteLen u)
        (by omega) (by simp at h2 ⊢; omega)
      refine ⟨k + 1, ?_, by simpa using hkl, ?_⟩
      · simp [cutPointAux, hk, Nat.not_le.mpr hc]
      · simp only [List.take_succ_cons, unitSum_cons]
        omega

/-- For output confined to the BMP (no surrogate units), an append leaves
the buffer at most `outputByteLimit` bytes long — the per-unit loop count
agrees with the real byte count exactly in this case. -/
theorem appendOutput_le_limit_bmp (limit : Nat) (st : List Nat × Bool)
    (chunk : List Nat)
    (h : ∀ u ∈ st.1 ++ chunk, isSurrogateUnit u = false) :
    utf16ByteLen (appendOutput limit st chunk).1 ≤ limit := by
  have hout : utf16ByteLen (st.1 ++ chunk) = unitSum (st.1 ++ chunk) :=
    utf16ByteLen_eq_unitSum _ h
  unfold appendOutput
  by_cases hgt : utf16ByteLen (st.1 ++ chunk) > limit
  · simp only [hgt, if_pos]
    obtain ⟨k, hk, _, hkb⟩ := cutPointAux_spec
      (utf16ByteLen (st.1 ++ chunk) - limit) (st.1 ++ chunk)
      (by omega) (by omega)
    have hdrop : utf16ByteLen ((st.1 ++ chunk).drop k)
        = unitSum ((st.1 ++ chunk).drop k) :=
      utf16ByteLen_eq_unitSum _ (fun u hu => h u (List.mem_of_mem_drop hu))
    have hsplit : unitSum ((st.1 ++ chunk).take k) +
        unitSum ((st.1 ++ chunk).drop k) = unitSum (st.1 ++ chunk) := by
      rw [← unitSum_append, List.take_append_drop]
    simp only [cutPoint, hk, Option.getD_some]
    rw [hdrop]
    omega
  · simp only [hgt, if_neg, if_false]
    omega

/-- The `truncated` flag is never reset by an append. -/
theorem appendOutput_truncated_mono (limit : Nat) (st : List Nat × Bool)
    (chunk : List Nat) (h : st.2 = true) :
    (appendOutput limit st chunk).2 = true := by
  by_cases hgt : utf16ByteLen (st.1 ++ chunk) > limit <;>
    simp [appendOutput, hgt, h]

theorem foldl_appendOutput_truncated_mono (limit : Nat)
    (chunks : List (List Nat)) (st : List Nat × Bool) (h : st.2 = true) :
    (chunks.foldl (appendOutput limit) st).2 = true := by
  induction chunks generalizing st with
  | nil => exact h
  | cons c cs ih =>
    exact ih _ (appendOutput_truncated_mono limit st c h)

/-- The slice of the source's `ManagedTerminal` record the handler's
operations read and write (the VS Code display terminal and the raw
process handle are external resources).  `output`/`truncated` are the
record's MIRROR of the append closure's state — the source refreshes
them only from a 100 ms `setInterval` and the `close` handler. -/
structure ManagedTerminal where
  output : List Nat
  truncated : Bool
  outputByteLimit : Nat
  exitCode : Option Int
  exitSignal : Option String
  exited : Bool
  deriving Repr, DecidableEq

/-- One mirror refresh (`setInterval` tick or `close` handler): copy the
append closure's `output`/`truncated` into the record. -/
def syncTerminal (m : ManagedTerminal) (closure : List Nat × Bool) :
    ManagedTerminal :=
  { m with output := closure.1, truncated := closure.2 }

inductive TermError where
  | terminalNotFound (terminalId : String)
  deriving Repr, DecidableEq

structure TerminalOutputResponse where
  output : List Nat
  truncated : Bool
  exitStatus : Option (Option Int × Option String)
  deriving Repr, DecidableEq

/-- `terminalOutput`: throws for an unknown id; otherwise reports the
record's (mirrored) buffer and `truncated` flag, and — once exited — the
exit status.  The table is returned alongside the outcome (reads leave
it unchanged). -/
def terminalOutput (terminals : List (String × ManagedTerminal))
    (terminalId : String) :
    Except TermError TerminalOutputResponse × List (String × ManagedTerminal) :=
  match alookup terminals terminalId with
  | none => (.error (.terminalNotFound terminalId), terminals)
  | some m =>
    (.ok { output := m.output, truncated := m.truncated
           exitStatus :=
             if m.exited then some (m.exitCode, m.exitSignal) else none },
     terminals)

/-- `waitForTerminalExit`: throws for an unknown id; otherwise suspends on
the exit promise and reports the exit code/signal. -/
def waitForTerminalExit (terminals : List (String × ManagedTerminal))
    (terminalId : String) :
    Except TermError (Option Int × Option String) × List (String × ManagedTerminal) :=
  match alookup terminals terminalId with
  | none => (.error (.terminalNotFound terminalId), terminals)
  | some m => (.ok (m.exitCode, m.exitSignal), terminals)

/-- `killTerminal`: throws for an unknown id; otherwise sends SIGTERM to
the backing process (an external effect) and leaves the table unchanged. -/
def killTerminal (terminals : List (String × ManagedTerminal))
    (terminalId : String) :
    Except TermError Unit × List (String × ManagedTerminal) :=
  match alookup terminals terminalId with
  | none => (.error (.terminalNotFound terminalId), terminals)
  | some _ => (.ok (), terminals)

/-- `releaseTerminal`: throws for an unknown id; otherwise kills the
process if still running (external effect) and deletes the bookkeeping
entry. -/
def releaseTerminal (terminals : List (String × ManagedTerminal))
    (terminalId : String) :
    Except TermError Unit × List (String × ManagedTerminal) :=
  match alookup terminals terminalId with
  | none => (.error (.terminalNotFound terminalId), terminals)
  | some _ => (.ok (), adel terminals terminalId)

/-- Nine U+1F600 emoji: eighteen code units, nine surrogate pairs,
36 UTF-8 bytes. -/
def emojiChunk : List Nat := (List.replicate 9 [0xD83D, 0xDE00]).flatten

/-- A terminal record whose mirror has not yet been refreshed since
truncation happened in the append closure. -/
def staleTerm : ManagedTerminal :=
  { output := [], truncated := false, outputByteLimit := 10
    exitCode := none, exitSignal := none, exited := false }

/-- C5 counterexample: the byte-limit invariant is false of the program.
With limit 10, appending nine U+1F600 emoji (36 bytes) makes the loop
count surrogates at 3 bytes each and cut after nine code units — through
the middle of a surrogate pair — leaving a buffer of 19 UTF-8 bytes,
well over the limit.  Moreover `terminalOutput` reads the record's
mirror, so right after truncation (before the next 100 ms refresh) a
read still reports `truncated = false`. -/
theorem terminal_buffer_limit_cex :
    utf16ByteLen (appendOutput 10 ([], false) emojiChunk).1 = 19 ∧
    10 < utf16ByteLen (appendOutput 10 ([], false) emojiChunk).1 ∧
    (appendOutput 10 ([], false) emojiChunk).2 = true ∧
    (∃ resp, (terminalOutput [("term_1", staleTerm)] "term_1").1 = .ok resp ∧
      resp.truncated = false) := by
  refine ⟨by decide, by decide, by decide,
    ⟨{ output := [], truncated := false, exitStatus := none }, rfl, rfl⟩⟩

/-- C5 as amended: the `truncated` flag, once set in the append closure,
survives every further append; for output confined to BMP code units (no
surrogates) the buffer never exceeds the byte limit after an append; a
mirror refresh copies the closure's flag into the record; `terminalOutput`
reports exactly the record's mirrored buffer/flag without touching the
table; and once a refresh has mirrored a truncated closure, every later
refresh (after any further appends) keeps the record's flag true — so
every read from then until release reports `truncated = true`. -/
theorem terminal_buffer_invariant_bmp :
    (∀ (limit : Nat) (st : List Nat × Bool) (chunk : List Nat),
      (∀ u ∈ st.1 ++ chunk, isSurrogateUnit u = false) →
      utf16ByteLen (appendOutput limit st chunk).1 ≤ limit) ∧
    (∀ (limit : Nat) (chunks : List (List Nat)) (st : List Nat × Bool),
      st.2 = true → (chunks.foldl (appendOutput limit) st).2 = true) ∧
    (∀ (m : ManagedTerminal) (closure : List Nat × Bool),
      (syncTerminal m closure).truncated = closure.2) ∧
    (∀ (terminals : List (String × ManagedTerminal)) (id : String)
      (m : ManagedTerminal), alookup terminals id = some m →
      ∃ resp, terminalOutput terminals id = (.ok resp, terminals) ∧
        resp.truncated = m.truncated ∧ resp.output = m.output) ∧
    (∀ (limit : Nat) (closure : List Nat × Bool) (m : ManagedTerminal)
      (chunks : List (List Nat)), closure.2 = true →
      (syncTerminal m (chunks.foldl (appendOutput limit) closure)).truncated
        = true) := by
  refine ⟨appendOutput_le_limit_bmp, ?_, ?_, ?_, ?_⟩
  · intro limit chunks st h
    exact foldl_appendOutput_truncated_mono limit chunks st h
  · intro m closure
    rfl
  · intro terminals id m h
    exact ⟨{ output := m.output, truncated := m.truncated
             exitStatus :=
               if m.exited then some (m.exitCode, m.exitSignal) else none },
           by simp only [terminalOutput, h], rfl, rfl⟩
  · intro limit closure m chunks h
    exact foldl_appendOutput_truncated_mono limit chunks closure h

def witTerm : ManagedTerminal :=
  { output := [0x68, 0x69], truncated := true, outputByteLimit := 10
    exitCode := some 0, exitSignal := none, exited := true }

theorem terminal_buffer_invariant_bmp_witness :
    utf16ByteLen (appendOutput 10 ([], false)
      (List.replicate 25 0x61)).1 ≤ 10 ∧
    (([[0x61], [0x62]] : List (List Nat)).foldl (appendOutput 4)
      ([0x78], true)).2 = true ∧
    (∃ resp, terminalOutput [("term_1", witTerm)] "term_1"
        = (.ok resp, [("term_1", witTerm)]) ∧
      resp.truncated = witTerm.truncated ∧ resp.output = witTerm.output) ∧
    (syncTerminal staleTerm
      (([[0x61]] : List (List Nat)).foldl (appendOutput 4)
        ([0x62], true))).truncated = true :=
  ⟨terminal_buffer_invariant_bmp.1 10 ([], false)
      (List.replicate 25 0x61) (by decide),
   terminal_buffer_invariant_bmp.2.1 4 [[0x61], [0x62]] ([0x78], true) rfl,
   terminal_buffer_invariant_bmp.2.2.2.1 [("term_1", witTerm)] "term_1"
      witTerm rfl,
   terminal_buffer_invariant_bmp.2.2.2.2 4 ([0x62], true) staleTerm
      [[0x61]] rfl⟩

/-! ### Front-truncation (C6) -/

/-- A 25-byte chunk: twelve two-byte characters (`é`, unit 0xE9) followed
by `a`. -/
def cexChunk : List Nat := List.replicate 12 0xE9 ++ [0x61]

/-- C6 counterexample: with byte limit 10 and a 25-byte output of
two-byte characters, the buffer after truncation is NOT "exactly the
last 10 bytes": the boundary search drops a whole extra character,
leaving only 9 bytes. -/
theorem front_truncation_exact_cex :
    utf16ByteLen cexChunk = 25 ∧
    utf16ByteLen (appendOutput 10 ([], false) cexChunk).1 = 9 ∧
    (appendOutput 10 ([], false) cexChunk).2 = true := by
  decide

theorem ascii_no_surrogates (us : List Nat) (h : ∀ u ∈ us, u < 0x80) :
    ∀ u ∈ us, isSurrogateUnit u = false := by
  intro u hu
  have := h u hu
  simp only [isSurrogateUnit, Bool.and_eq_false_iff, decide_eq_false_iff_not,
    Nat.not_le]
  omega

theorem unitSum_of_ascii (us : List Nat) (h : ∀ u ∈ us, u < 0x80) :
    unitSum us = us.length := by
  induction us with
  | nil => rfl
  | cons u us ih =>
    have hu : unitByteLen u = 1 := by
      unfold unitByteLen
      rw [if_pos (h u (by simp))]
    simp only [unitSum_cons, List.length_cons, hu]
    rw [ih fun x hx => h x (by simp [hx])]
    omega

theorem utf16ByteLen_of_ascii (us : List Nat) (h : ∀ u ∈ us, u < 0x80) :
    utf16ByteLen us = us.length := by
  rw [utf16ByteLen_eq_unitSum us (ascii_no_surrogates us h),
    unitSum_of_ascii us h]

theorem cutPointAux_ascii (excess : Nat) (us : List Nat)
    (h : ∀ u ∈ us, u < 0x80)
    (h1 : 1 ≤ excess) (h2 : excess ≤ us.length) :
    cutPointAux excess us = some excess := by
  induction us generalizing excess with
  | nil => simp at h2; omega
  | cons u us ih =>
    have hu : unitByteLen u = 1 := by
      unfold unitByteLen
      rw [if_pos (h u (by simp))]
    by_cases he : excess ≤ unitByteLen u
    · have hone : excess = 1 := by omega
      subst hone
      simp [cutPointAux, hu]
    · rw [hu] at he
      have h2' : excess ≤ us.length + 1 := by simpa using h2
      have hrec := ih (excess - 1) (fun x hx => h x (by simp [hx]))
        (by omega) (by omega)
      have heq : excess - 1 + 1 = excess := by omega
      simp [cutPointAux, hu, he, hrec, heq]

/-- For single-byte output, one append keeps exactly the last `limit`
bytes of the concatenation (all of it when it fits), and flags truncation
exactly when the concatenation overflows. -/
theorem appendOutput_ascii (limit : Nat) (buf : List Nat) (b : Bool)
    (chunk : List Nat)
    (hb : ∀ u ∈ buf, u < 0x80) (hc : ∀ u ∈ chunk, u < 0x80) :
    appendOutput limit (buf, b) chunk =
      ((buf ++ chunk).drop ((buf ++ chunk).length - limit),
       if limit < (buf ++ chunk).length then true else b) := by
  have hall : ∀ u ∈ buf ++ chunk, u < 0x80 := by
    intro u hm
    rcases List.mem_append.mp hm with h | h
    · exact hb u h
    · exact hc u h
  have hlen' : utf16ByteLen (buf ++ chunk) = buf.length + chunk.length := by
    rw [utf16ByteLen_of_ascii _ hall, List.length_append]
  by_cases hgt : limit < buf.length + chunk.length
  · have hcut : cutPoint (buf.length + chunk.length - limit) (buf ++ chunk)
        = buf.length + chunk.length - limit := by
      rw [cutPoint, cutPointAux_ascii _ _ hall (by omega)
        (by rw [List.length_append]; omega)]
      rfl
    simp [appendOutput, hlen', hgt, hcut]
  · have hz : buf.length + chunk.length - limit = 0 := by omega
    simp [appendOutput, hlen', hgt, hz]

/-- For single-byte output, a whole sequence of appends keeps exactly the
last `limit` bytes of the total concatenation, with `truncated` set
exactly when the total overflows the limit. -/
theorem foldl_appendOutput_ascii (limit : Nat) (chunks : List (List Nat))
    (done : List Nat)
    (hd : ∀ u ∈ done, u < 0x80)
    (hcs : ∀ u ∈ chunks.flatten, u < 0x80) :
    chunks.foldl (appendOutput limit)
      (done.drop (done.length - limit), decide (limit < done.length)) =
    ((done ++ chunks.flatten).drop ((done ++ chunks.flatten).length - limit),
     decide (limit < (done ++ chunks.flatten).length)) := by
  induction chunks generalizing done with
  | nil => simp
  | cons ch chs ih =>
    have hch : ∀ u ∈ ch, u < 0x80 := by
      intro u hm
      exact hcs u (by simp [hm])
    have hdrop : ∀ u ∈ done.drop (done.length - limit), u < 0x80 := by
      intro u hm
      exact hd u (List.mem_of_mem_drop hm)
    have hstep := appendOutput_ascii limit (done.drop (done.length - limit))
      (decide (limit < done.length)) ch hdrop hch
    have hdonelen : (done.drop (done.length - limit)).length
        = min done.length limit := by
      simp [List.length_drop]
      omega
    -- rewrite the dropped-buffer append as a drop of the full concatenation
    have hdropapp : done.drop (done.length - limit) ++ ch
        = (done ++ ch).drop (done.length - limit) := by
      rw [List.drop_append_of_le_length (by omega)]
    have hlen2 : ((done ++ ch).drop (done.length - limit)).length
        = min done.length limit + ch.length := by
      rw [← hdropapp, List.length_append, hdonelen]
    have hdd : ((done ++ ch).drop (done.length - limit)).drop
          (((done ++ ch).drop (done.length - limit)).length - limit)
        = (done ++ ch).drop ((done ++ ch).length - limit) := by
      rw [hlen2, List.drop_drop, List.length_append]
      congr 1
      omega
    have hflag :
        (if limit < ((done ++ ch).drop (done.length - limit)).length
          then true else decide (limit < done.length))
        = decide (limit < (done ++ ch).length) := by
      rw [hlen2, List.length_append]
      by_cases hd1 : done.length ≤ limit
      · rw [Nat.min_eq_left hd1]
        by_cases hov : limit < done.length + ch.length
        · simp [hov]
        · have hnd : ¬ limit < done.length := by omega
          simp [hov, hnd]
      · have ht1 : decide (limit < done.length) = true := by
          simp only [decide_eq_true_eq]
          omega
        have ht2 : decide (limit < done.length + ch.length) = true := by
          simp only [decide_eq_true_eq]
          omega
        rw [Nat.min_eq_right (by omega), ht1, ht2, ite_self]
    have hdch : ∀ u ∈ done ++ ch, u < 0x80 := by
      intro u hm
      rcases List.mem_append.mp hm with h | h
      · exact hd u h
      · exact hch u h
    have hchs : ∀ u ∈ chs.flatten, u < 0x80 := by
      intro u hm
      exact hcs u (by simp at hm ⊢; tauto)
    rw [List.foldl_cons, hstep, hdropapp, hdd, hflag, ih (done ++ ch) hdch hchs]
    simp

/-- C6 as amended: with byte limit 10 and 25 bytes of single-byte (ASCII)
output, in any chunking, the final buffer is exactly the last 10 bytes
of the output with `truncated = true`, and `terminalOutput` on a record
mirroring that buffer reports exactly it.  (For multi-byte content the
claim fails: the per-code-unit cut can keep fewer than 10 bytes — see the
counterexample — or, for astral content, more than 10 bytes starting in
the middle of a surrogate pair.) -/
theorem front_truncation_last_bytes (chunks : List (List Nat))
    (hascii : ∀ u ∈ chunks.flatten, u < 0x80)
    (h25 : utf16ByteLen chunks.flatten = 25) :
    (chunks.foldl (appendOutput 10) ([], false)).1 = chunks.flatten.drop 15 ∧
    utf16ByteLen (chunks.foldl (appendOutput 10) ([], false)).1 = 10 ∧
    (chunks.foldl (appendOutput 10) ([], false)).2 = true ∧
    (∀ (m : ManagedTerminal),
      m.output = (chunks.foldl (appendOutput 10) ([], false)).1 →
      m.truncated = (chunks.foldl (appendOutput 10) ([], false)).2 →
      ∃ resp, (terminalOutput [("term_1", m)] "term_1").1 = .ok resp ∧
        resp.output = chunks.flatten.drop 15 ∧ resp.truncated = true) := by
  have hlen : chunks.flatten.length = 25 := by
    rw [← utf16ByteLen_of_ascii _ hascii, h25]
  have h0 := foldl_appendOutput_ascii 10 chunks [] (by simp) hascii
  simp only [List.nil_append, List.length_nil, List.drop_nil, hlen] at h0
  norm_num at h0
  have h1 : (chunks.foldl (appendOutput 10) ([], false)).1
      = chunks.flatten.drop 15 := by rw [h0]
  have hdroplen : (chunks.flatten.drop 15).length = 10 := by
    rw [List.length_drop, hlen]
  have hdropascii : ∀ u ∈ chunks.flatten.drop 15, u < 0x80 := by
    intro u hm
    exact hascii u (List.mem_of_mem_drop hm)
  refine ⟨h1, ?_, by rw [h0], ?_⟩
  · rw [h1, utf16ByteLen_of_ascii _ hdropascii, hdroplen]
  · intro m hmo hmt
    refine ⟨{ output := m.output, truncated := m.truncated
              exitStatus :=
                if m.exited then some (m.exitCode, m.exitSignal) else none },
            by simp [terminalOutput], ?_, ?_⟩
    · rw [hmo, h1]
    · rw [hmt, h0]

theorem front_truncation_last_bytes_witness :
    (([List.replicate 13 0x61, List.replicate 12 0x62].foldl (appendOutput 10)
        ([], false)).1
      = ([List.replicate 13 0x61, List.replicate 12 0x62] :
          List (List Nat)).flatten.drop 15 ∧
     utf16ByteLen (([List.replicate 13 0x61, List.replicate 12 0x62] :
        List (List Nat)).foldl (appendOutput 10) ([], false)).1 = 10) ∧
    (([List.replicate 13 0x61, List.replicate 12 0x62] :
        List (List Nat)).foldl (appendOutput 10) ([], false)).2 = true :=
  have h := front_truncation_last_bytes
    [List.replicate 13 0x61, List.replicate 12 0x62] (by decide) (by decide)
  ⟨⟨h.1, h.2.1⟩, h.2.2.1⟩

/-- C7.  Every terminal operation on an id missing from the handler's
table throws `Terminal not found` and leaves the table unchanged. -/
theorem terminal_not_found_all_ops (terminals : List (String × ManagedTerminal))
    (id : String) (h : alookup terminals id = none) :
    terminalOutput terminals id = (.error (.terminalNotFound id), terminals) ∧
    waitForTerminalExit terminals id
      = (.error (.terminalNotFound id), terminals) ∧
    killTerminal terminals id = (.error (.terminalNotFound id), terminals) ∧
    releaseTerminal terminals id = (.error (.terminalNotFound id), terminals) := by
  unfold terminalOutput waitForTerminalExit killTerminal releaseTerminal
  simp [h]

theorem terminal_not_found_all_ops_witness :
    terminalOutput [] "term_9" = (.error (.terminalNotFound "term_9"), []) ∧
    releaseTerminal [] "term_9" = (.error (.terminalNotFound "term_9"), []) :=
  ⟨(terminal_not_found_all_ops [] "term_9" rfl).1,
   (terminal_not_found_all_ops [] "term_9" rfl).2.2.2⟩

/-! ## PermissionHandler (src/handlers/PermissionHandler.ts)

`requestPermission` reads the `acp.autoApprovePermissions` setting, may
short-circuit on an allow-kind option, and otherwise awaits
`showQuickPick` over all agent-provided options.  The class has no
instance state whatsoever, so each call runs independently of any other
call in flight. -/

structure PermOption where
  optionId : String
  name : String
  kind : String
  deriving Repr, DecidableEq

structure PermRequest where
  options : List PermOption
  title : String
  deriving Repr, DecidableEq

structure PermItem where
  label : String
  description : String
  optionId : String
  deriving Repr, DecidableEq

inductive PermOutcome where
  | selected (optionId : String)
  | cancelled
  deriving Repr, DecidableEq

/-- What `requestPermission` does before its first (and only) suspension
point: either resolve immediately (auto-approve) or present a QuickPick
prompt built from all the agent's options. -/
inductive PermStart where
  | resolved (outcome : PermOutcome)
  | prompt (items : List PermItem)
  deriving Repr, DecidableEq

/-- QuickPick item construction (label icon by `kind.startsWith('allow')`,
description `kind`, carrying the optionId). -/
def quickPickItem (o : PermOption) : PermItem :=
  { label := (if o.kind.startsWith "allow" then "$(check) " else "$(x) ") ++ o.name
    description := o.kind
    optionId := o.optionId }

/-- The synchronous head of `requestPermission`: with the setting at
`'all'`, pick the first option whose kind is `allow_once`/`allow_always`
and resolve without prompting; otherwise (including when no allow-kind
option exists) fall through to the QuickPick over all options. -/
def requestPermissionStart (autoApprove : String) (p : PermRequest) : PermStart :=
  if autoApprove = "all" then
    match p.options.find? (fun o => o.kind = "allow_once" || o.kind = "allow_always") with
    | some o => .resolved (.selected o.optionId)
    | none => .prompt (p.options.map quickPickItem)
  else .prompt (p.options.map quickPickItem)

/-- The tail of `requestPermission` after `showQuickPick` returns:
a dismissed pick resolves `{cancelled}`, a selection resolves
`{selected, optionId}`. -/
def requestPermissionFinish (selection : Option PermItem) : PermOutcome :=
  match selection with
  | none => .cancelled
  | some item => .selected item.optionId

/-! ### Event-loop trace model for concurrent permission requests

The handler object is stateless (the class declares no fields), so a
submitted request immediately runs to its own `showQuickPick` suspension
point; there is no pending-promise chain for it to wait on.  A trace is a
list of events: `submit i req` (the agent's RPC arrives and the handler
body runs to its suspension or resolution) and `respond i c` (the user
settles request `i`'s QuickPick with choice `c`). -/

inductive PermEvent where
  | submit (i : Nat) (req : PermRequest)
  | respond (i : Nat) (choice : Option PermItem)
  deriving Repr, DecidableEq

structure ArbState where
  /-- requests whose prompt is currently on screen, oldest first -/
  outstanding : List Nat
  /-- resolved requests with their outcomes, in resolution order -/
  resolved : List (Nat × PermOutcome)
  deriving Repr, DecidableEq

def permStep (autoApprove : String) (st : ArbState) : PermEvent → ArbState
  | .submit i req =>
    match requestPermissionStart autoApprove req with
    | .resolved o => { st with resolved := st.resolved ++ [(i, o)] }
    | .prompt _ => { st with outstanding := st.outstanding ++ [i] }
  | .respond i choice =>
    if st.outstanding.contains i then
      { outstanding := st.outstanding.filter (· ≠ i)
        resolved := st.resolved ++ [(i, requestPermissionFinish choice)] }
    else st

def permRun (autoApprove : String) (events : List PermEvent) : ArbState :=
  events.foldl (permStep autoApprove) ⟨[], []⟩

/-- A non-auto-approved request used by the trace counterexample. -/
def cexReq : PermRequest :=
  { options := [{ optionId := "opt-rw", name := "Allow", kind := "allow_once" },
                { optionId := "opt-no", name := "Reject", kind := "reject_once" }]
    title := "Write file?" }

/-- C2 counterexample: with auto-approve off, submitting two permission
requests concurrently (no response in between) puts BOTH prompts on
screen at once — the handler has no queue, so requests are not serialized
and more than one prompt is outstanding. -/
theorem permission_fifo_cex :
    (permRun "none" [.submit 1 cexReq, .submit 2 cexReq]).outstanding = [1, 2] ∧
    (permRun "none" [.submit 1 cexReq, .submit 2 cexReq]).outstanding.length = 2 := by
  constructor <;> rfl

/-- C2 as amended: permission requests are not serialized.  Each submitted
request that is not auto-approved presents its prompt immediately,
regardless of how many prompts are already outstanding, and a response to
request `i` resolves exactly request `i` with its own chooser's outcome. -/
theorem permission_no_serialization (autoApprove : String) (st : ArbState)
    (i : Nat) (req : PermRequest) (items : List PermItem)
    (choice : Option PermItem)
    (hp : requestPermissionStart autoApprove req = .prompt items) :
    permStep autoApprove st (.submit i req)
      = { st with outstanding := st.outstanding ++ [i] } ∧
    (st.outstanding.contains i = true →
      permStep autoApprove st (.respond i choice)
        = { outstanding := st.outstanding.filter (· ≠ i)
            resolved := st.resolved ++ [(i, requestPermissionFinish choice)] }) := by
  constructor
  · simp only [permStep, hp]
  · intro hmem
    simp only [permStep, hmem, if_pos]

theorem permission_no_serialization_witness :
    permStep "none" ⟨[1], []⟩ (.submit 2 cexReq)
      = { outstanding := [1, 2], resolved := [] } ∧
    permStep "none" ⟨[1, 2], []⟩ (.respond 1 none)
      = { outstanding := [2], resolved := [(1, .cancelled)] } :=
  ⟨(permission_no_serialization "none" ⟨[1], []⟩ 2 cexReq
      (cexReq.options.map quickPickItem) none rfl).1,
   (permission_no_serialization "none" ⟨[1, 2], []⟩ 1 cexReq
      (cexReq.options.map quickPickItem) none rfl).2 rfl⟩

/-- C9.  Auto-approve policy: with the setting at `'all'`, the handler
resolves immediately to the FIRST agent-offered allow-kind option without
prompting; when no allow-kind option is offered (or the setting is
anything else), it surfaces ALL agent-provided options to the chooser,
and the outcome is the chooser's selection or `{cancelled}` — never a
silent denial. -/
theorem auto_approve_policy (p : PermRequest) (aa : String) (o : PermOption)
    (item : PermItem) :
    (p.options.find? (fun o => o.kind = "allow_once" || o.kind = "allow_always")
        = some o →
      requestPermissionStart "all" p = .resolved (.selected o.optionId)) ∧
    (p.options.find? (fun o => o.kind = "allow_once" || o.kind = "allow_always")
        = none →
      requestPermissionStart "all" p = .prompt (p.options.map quickPickItem)) ∧
    (aa ≠ "all" →
      requestPermissionStart aa p = .prompt (p.options.map quickPickItem)) ∧
    requestPermissionFinish none = .cancelled ∧
    requestPermissionFinish (some item) = .selected item.optionId := by
  refine ⟨?_, ?_, ?_, rfl, rfl⟩
  · intro h
    simp [requestPermissionStart, h]
  · intro h
    simp [requestPermissionStart, h]
  · intro h
    simp only [requestPermissionStart, if_neg h]

theorem auto_approve_policy_witness :
    requestPermissionStart "all" cexReq
      = .resolved (.selected "opt-rw") ∧
    requestPermissionStart "all"
        { options := [{ optionId := "opt-no", name := "Reject"
                        kind := "reject_once" }], title := "t" }
      = .prompt [quickPickItem
          { optionId := "opt-no", name := "Reject", kind := "reject_once" }] ∧
    requestPermissionFinish none = .cancelled :=
  ⟨(auto_approve_policy cexReq "none"
      { optionId := "opt-rw", name := "Allow", kind := "allow_once" }
      (quickPickItem { optionId := "opt-no", name := "Reject", kind := "reject_once" })).1
      rfl,
   (auto_approve_policy
      { options := [{ optionId := "opt-no", name := "Reject", kind := "reject_once" }]
        title := "t" } "none"
      { optionId := "opt-rw", name := "Allow", kind := "allow_once" }
      (quickPickItem { optionId := "opt-no", name := "Reject", kind := "reject_once" })).2.1
      rfl,
   (auto_approve_policy cexReq "none"
      { optionId := "opt-rw", name := "Allow", kind := "allow_once" }
      (quickPickItem { optionId := "opt-no", name := "Reject", kind := "reject_once" })).2.2.2.1⟩

/-! ## FileSystemHandler (src/handlers/FileSystemHandler.ts) -/

/-- JS `Array.prototype.slice(start, end)` over Lean lists, including its
negative-index (count from the end) and clamping semantics. -/
def jsSlice {α : Type} (xs : List α) (start endIdx : Int) : List α :=
  let len : Int := xs.length
  let s := if start < 0 then max (len + start) 0 else min start len
  let e := if endIdx < 0 then max (len + endIdx) 0 else min endIdx len
  (xs.take e.toNat).drop s.toNat

/-- JS `content.split('\n')` over the characters of the content: always
at least one (possibly empty) segment, exactly as in JS. -/
def splitLines : List Char → List (List Char)
  | [] => [[]]
  | c :: cs =>
    let rest := splitLines cs
    if c = '\n' then [] :: rest
    else
      match rest with
      | [] => [[c]]
      | l :: ls => (c :: l) :: ls

/-- JS `lines.join('\n')`. -/
def joinLines : List (List Char) → List Char
  | [] => []
  | [l] => l
  | l :: ls => l ++ '\n' :: joinLines ls

/-- The line/limit slicing of `readTextFile`: applied only when at least
one of `line`/`limit` is present (non-null); `startLine = (line ?? 1) - 1`
(1-based to 0-based); `endLine` is `startLine + limit` when `limit` is
truthy — JS truthiness sends `limit = 0` to `lines.length` too. -/
def readSlice (content : List Char) (line limit : Option Int) : List Char :=
  if line.isSome || limit.isSome then
    let lines := splitLines content
    let startLine := (line.getD 1) - 1
    let endLine : Int :=
      match limit with
      | some l => if l ≠ 0 then startLine + l else (lines.length : Int)
      | none => (lines.length : Int)
    joinLines (jsSlice lines startLine endLine)
  else content

/-- `readTextFile`, with the unsaved-buffer/disk read abstracted as the
resolved `content` the code obtains before slicing (the `catch` clause
rethrows, so failures arise only from that external read). -/
def readTextFile (content : Except String (List Char)) (line limit : Option Int) :
    Except String (List Char) :=
  match content with
  | .error e => .error e
  | .ok c => .ok (readSlice c line limit)

theorem jsSlice_start_ge_length {α : Type} (xs : List α) (s e : Int)
    (hs : (xs.length : Int) ≤ s) : jsSlice xs s e = [] := by
  unfold jsSlice
  have h0 : ¬ s < 0 := by omega
  have hmin : min s (xs.length : Int) = (xs.length : Int) := by omega
  simp only [h0, if_false, hmin]
  apply List.drop_eq_nil_of_le
  have ht : ((xs.length : Int)).toNat = xs.length := by omega
  rw [ht]
  simp [List.length_take]

theorem jsSlice_mem {α : Type} (xs : List α) (s e : Int) :
    ∀ x ∈ jsSlice xs s e, x ∈ xs := by
  intro x hx
  unfold jsSlice at hx
  exact List.mem_of_mem_take (List.mem_of_mem_drop hx)

theorem jsSlice_length_le {α : Type} (xs : List α) (s e : Int) :
    (jsSlice xs s e).length ≤ xs.length := by
  unfold jsSlice
  simp only [List.length_drop, List.length_take]
  omega

/-- C10.  A `readTextFile` whose 1-based line offset exceeds the file's
line count succeeds with empty content rather than failing, and the
slicing is always in bounds: for any offset and count, every returned
line is a line of the file and no more lines than exist are returned. -/
theorem readTextFile_line_overflow (c : List Char) (k : Int) (limit : Option Int)
    (hk : ((splitLines c).length : Int) < k) :
    readTextFile (.ok c) (some k) limit = .ok [] ∧
    (∀ (xs : List (List Char)) (s e : Int),
      (∀ x ∈ jsSlice xs s e, x ∈ xs) ∧ (jsSlice xs s e).length ≤ xs.length) := by
  constructor
  · show Except.ok (readSlice c (some k) limit) = .ok []
    congr 1
    unfold readSlice
    simp only [Option.isSome_some, Bool.true_or, if_true]
    rw [jsSlice_start_ge_length _ _ _ (by simp only [Option.getD_some]; omega)]
    rfl
  · intro xs s e
    exact ⟨jsSlice_mem xs s e, jsSlice_length_le xs s e⟩

theorem readTextFile_line_overflow_witness :
    readTextFile (.ok ['a', 'b', '\n', 'c']) (some 5) (some 2) = .ok [] :=
  (readTextFile_line_overflow ['a', 'b', '\n', 'c'] 5 (some 2) (by decide)).1

end Acp
